import Mathlib

/-!
Verification development for the goircd IRC server (client.go, daemon.go,
goircd.go).  The Go source is shallowly embedded: each Go function that the
properties below talk about is translated into an executable Lean definition,
byte-string manipulation is done on `List Char`, time is modelled in whole
seconds as `Nat`, goroutine inboxes are modelled by processing forwarded
events inline, and the blocking send on a nil channel is modelled by a
`stuck` flag.  External collaborators (file system, sockets, log and state
sinks) are out of scope; their inputs appear as plain data fields.
-/

/-! ## Go string primitives (strings / bytes packages), on `List Char` -/

/-- Go `strings.Split(s, sep)` on a single-character separator, as a list of
character groups; splitting the empty string yields one empty group. -/
def splitChar (sep : Char) : List Char → List (List Char)
  | [] => [[]]
  | c :: rest =>
    if c = sep then [] :: splitChar sep rest
    else
      match splitChar sep rest with
      | [] => [[c]]
      | g :: gs => (c :: g) :: gs

/-- Join character groups with a single space (inverse of splitting on `' '`). -/
def joinSpace : List (List Char) → List Char
  | [] => []
  | [x] => x
  | x :: xs => x ++ ' ' :: joinSpace xs

/-- Go `strings.Split(s, string(sep))`. -/
def goSplit (s : String) (sep : Char) : List String :=
  (splitChar sep s.data).map String.mk

/-- Go `strings.SplitN(s, " ", n)` for `n ≥ 1`: at most `n` fields, the last
field keeps the remaining separators. -/
def goSplitN (s : String) (n : Nat) : List String :=
  let parts := splitChar ' ' s.data
  if parts.length ≤ n then parts.map String.mk
  else (parts.take (n - 1)).map String.mk ++ [String.mk (joinSpace (parts.drop (n - 1)))]

/-- Go `strings.ToUpper` (ASCII, which covers IRC commands). -/
def goToUpper (s : String) : String := String.mk (s.data.map Char.toUpper)

/-- Go `strings.ToLower` (ASCII). -/
def goToLower (s : String) : String := String.mk (s.data.map Char.toLower)

/-- Go `strings.TrimPrefix(s, ":")`: removes one leading colon if present. -/
def goTrimOneColon (s : String) : String :=
  match s.data with
  | ':' :: rest => String.mk rest
  | _ => s

/-- Go `strings.TrimLeft(s, ":")`: removes every leading colon. -/
def goTrimColons (s : String) : String := String.mk (s.data.dropWhile (· = ':'))

/-- Go `strings.HasPrefix(s, p)`. -/
def goHasPre (s p : String) : Bool := p.data.isPrefixOf s.data

/-- Index of the first space in a character list (Go `strings.Index(s, " ")`,
with `none` for Go's `-1`). -/
def indexOfSpace : List Char → Option Nat
  | [] => none
  | c :: rest => if c = ' ' then some 0 else (indexOfSpace rest).map (· + 1)

/-- Insertion step for lexicographic sorting of strings. -/
def insertSorted (s : String) : List String → List String
  | [] => [s]
  | x :: xs => if s ≤ x then s :: x :: xs else x :: insertSorted s xs

/-- Go `sort.Strings`. -/
def sortStrings (l : List String) : List String := l.foldr insertSorted []

/-- Join a list of strings with single spaces (Go `strings.Join(l, " ")`). -/
def joinWithSpace (l : List String) : String := String.mk (joinSpace (l.map (·.data)))

/-! ## Constants (client.go, daemon.go); durations are in seconds -/

/-- client.go: `BufSize = 1500`. -/
def BufSize : Nat := 1500

/-- daemon.go: `PingTimeout = time.Second * 180`. -/
def PingTimeout : Nat := 180

/-- daemon.go: `PingThreshold = time.Second * 90`. -/
def PingThreshold : Nat := 90

/-- daemon.go: `AlivenessCheck = time.Second * 10`. -/
def AlivenessCheck : Nat := 10

/-! ## Events

Modelled from the spec: the file defining the `ClientEvent` variant tags
(`EventNew`, `EventDel`, `EventMsg`, `EventTopic`, `EventWho`, `EventMode`,
`EventTerm`) is not among the provided sources; the spec describes
`ClientEvent` as "a tagged variant with cases New, Del, Msg(text),
Topic(text), Who, Mode(text), Term". -/

/-- Modelled from the spec: the tag of a `ClientEvent`. -/
inductive EventType
  | eventNew
  | eventDel
  | eventMsg
  | eventTopic
  | eventWho
  | eventMode
  | eventTerm
deriving DecidableEq

/-! ## Line framer (client.go, `Client.Processor`) -/

/-- One pass of the framer's `CheckMore` loop (client.go:85-93): repeatedly
find the first CRLF in the buffer, cut the line before it, and keep the
bytes after it; returns the complete lines in order and the unconsumed
remainder. -/
def splitCRLF : List Char → List String × List Char
  | [] => ([], [])
  | '\r' :: '\n' :: rest =>
    let p := splitCRLF rest
    ("" :: p.1, p.2)
  | c :: rest =>
    let p := splitCRLF rest
    match p.1 with
    | [] => ([], c :: p.2)
    | l :: ls => (String.mk (c :: l.data) :: ls, p.2)

/-- The framer's read loop (client.go:72-94).  `chunks` is the sequence of
byte groups successive `conn.Read` calls deliver; an exhausted sequence
models a read error or EOF.  At the top of each iteration the accumulated
unconsumed byte count is compared with `BufSize` and the client is kicked
(`Del`, connection closed) on equality; otherwise a chunk is read, complete
CRLF lines are emitted as `Msg` events and the remainder is kept. -/
def framer (chunks : List (List Char)) (buf : List Char) : List (EventType × String) :=
  if buf.length = BufSize then [(EventType.eventDel, "")]
  else
    match chunks with
    | [] => [(EventType.eventDel, "")]
    | c :: rest =>
      ((splitCRLF (buf ++ c)).1.map (fun l => (EventType.eventMsg, l))) ++
        framer rest (splitCRLF (buf ++ c)).2

/-- Full framer task (client.go:64-95): a `New` event is emitted before the
read loop starts. -/
def clientProcessorEvents (chunks : List (List Char)) : List (EventType × String) :=
  (EventType.eventNew, "") :: framer chunks []

/-! ## Data model (client.go, goircd.go, daemon.go)

Go identifies clients by pointer; the model carries a numeric `id` standing
for the pointer, with `conn.RemoteAddr().String()` as the `addr` field.
`NewClient` (client.go:57) starts with nickname `"*"` and empty password. -/

structure Client where
  id : Nat
  addr : String
  registered : Bool
  nickname : String
  username : String
  realname : String
  password : String
  away : Option String
deriving DecidableEq

/-- client.go:57: `NewClient`. -/
def newClient (id : Nat) (addr : String) : Client :=
  ⟨id, addr, false, "*", "", "", "", none⟩

/-- client.go:53: `Client.String` — the `<nick>!<user>@<remoteaddr>` display form. -/
def clientDisplay (c : Client) : String :=
  c.nickname ++ "!" ++ c.username ++ "@" ++ c.addr

/-- client.go:48: `ClientAlivenessState` with `time.Time` as seconds. -/
structure ClientAlivenessState where
  pingSent : Bool
  timestamp : Nat
deriving DecidableEq

/-- goircd.go: `Room`.  Membership is the map `members map[*Client]bool`,
modelled as a duplicate-free-by-id list of client records (a registered
client's identifying fields are never mutated afterwards, so holding the
record is equivalent to holding the Go pointer). -/
structure Room where
  name : String
  topic : String
  key : String
  members : List Client
deriving DecidableEq

/-- An event as delivered to a room actor's inbox (the Go `ClientEvent`,
whose `client` field is a pointer to the concerned client). -/
structure ClientEvent where
  client : Client
  eventType : EventType
  text : String
deriving DecidableEq

/-- An event as delivered to the daemon's inbox; the framer identifies the
client by its pointer, here by `clientId` (with the remote address carried
along for `New`). -/
structure DaemonEvent where
  clientId : Nat
  addr : String
  eventType : EventType
  text : String
deriving DecidableEq

/-- goircd.go:170: `RoomNameValid`, the regex `^#[^\x00\x07\x0a\x0d ,:/]{1,200}$`
as direct character checks. -/
def roomCharOk (ch : Char) : Bool :=
  !(ch = '\x00' || ch = '\x07' || ch = '\n' || ch = '\r' || ch = ' ' || ch = ',' || ch = ':' || ch = '/')

/-- goircd.go:170: `RoomNameValid`. -/
def roomNameValid (s : String) : Bool :=
  match s.data with
  | '#' :: rest => 1 ≤ rest.length && rest.length ≤ 200 && rest.all roomCharOk
  | _ => false

/-- daemon.go:42: the nickname regex `^[a-zA-Z0-9-]{1,9}$` as direct
character checks (`Char.isAlpha`/`isDigit` are the ASCII ranges). -/
def nickChar (ch : Char) : Bool := ch.isAlpha || ch.isDigit || ch = '-'

/-- daemon.go:42: `RENickname.MatchString`. -/
def nickValid (s : String) : Bool :=
  1 ≤ s.data.length && s.data.length ≤ 9 && s.data.all nickChar

/-! ## Association-list helpers for the daemon's maps keyed by client pointer -/

/-- Lookup in a pointer-keyed Go map. -/
def getAssoc {β : Type} : List (Nat × β) → Nat → Option β
  | [], _ => none
  | p :: rest, k => if p.1 = k then some p.2 else getAssoc rest k

/-- Map update `m[k] = v`. -/
def setAssoc {β : Type} : List (Nat × β) → Nat → β → List (Nat × β)
  | [], k, v => [(k, v)]
  | p :: rest, k, v => if p.1 = k then (k, v) :: rest else p :: setAssoc rest k v

/-- Map deletion `delete(m, k)`. -/
def delAssoc {β : Type} (l : List (Nat × β)) (k : Nat) : List (Nat × β) :=
  l.filter (fun p => !(p.1 == k))

/-! ## Reply formatter (client.go:98-136) -/

/-- client.go:103: `Client.Reply` — prefix with `:<hostname> `. -/
def reply (host text : String) : String := ":" ++ host ++ " " ++ text

/-- Prefix the last element of a list of parts with `":"` (client.go:114). -/
def prefixLastColon : List String → List String
  | [] => []
  | [x] => [":" ++ x]
  | x :: xs => x :: prefixLastColon xs

/-- client.go:109: `Client.ReplyParts`. -/
def replyParts (host code : String) (parts : List String) : String :=
  reply host (joinWithSpace (prefixLastColon (code :: parts)))

/-- client.go:120: `Client.ReplyNicknamed`. -/
def replyNicknamed (host nick code : String) (parts : List String) : String :=
  replyParts host code (nick :: parts)

/-- client.go:125: `Client.ReplyNotEnoughParameters`. -/
def replyNotEnoughParameters (host : String) (c : Client) (command : String) : String :=
  replyNicknamed host c.nickname "461" [command, "Not enough parameters"]

/-- client.go:130: `Client.ReplyNoChannel`. -/
def replyNoChannel (host : String) (c : Client) (channel : String) : String :=
  replyNicknamed host c.nickname "403" [channel, "No such channel"]

/-- client.go:134: `Client.ReplyNoNickChan`. -/
def replyNoNickChan (host : String) (c : Client) (channel : String) : String :=
  replyNicknamed host c.nickname "401" [channel, "No such nick/channel"]

/-- goircd.go:276: the channel-mode reply, sent raw through `Client.Msg`. -/
def mode324Line (nick room mode : String) : String :=
  "324 " ++ nick ++ " " ++ room ++ " " ++ mode

/-- daemon.go:393: the user-mode reply, sent raw through `Client.Msg`. -/
def mode221Line (nick : String) : String := "221 " ++ nick ++ " +"

/-! ## Channel actor (goircd.go:200-317, `Room.Processor`)

The actor's event loop is modelled one event at a time.  Log-sink and
state-sink records go to external collaborators and are not tracked.
A reply is a pair of the receiving client's id and the line text
(CRLF is appended at write time by `Client.Msg`). -/

/-- Membership test `room.members[client]` — pointer identity, here by id. -/
def isMember (room : Room) (c : Client) : Bool :=
  room.members.any (fun m => m.id == c.id)

/-- goircd.go:200: `Room.SendTopic`. -/
def sendTopicReply (host : String) (room : Room) (c : Client) : Nat × String :=
  if room.topic = "" then
    (c.id, replyNicknamed host c.nickname "331" [room.name, "No topic is set"])
  else
    (c.id, replyNicknamed host c.nickname "332" [room.name, room.topic])

/-- goircd.go:209: `Room.Broadcast` — a line to every member, possibly
skipping one client. -/
def roomBroadcast (room : Room) (msg : String) (ignore : Option Nat) : List (Nat × String) :=
  room.members.filterMap (fun m => if ignore = some m.id then none else some (m.id, msg))

/-- goircd.go:311-313: the `Msg` handler slices the text at the first space
(`event.text[:sep]` / `event.text[sep+1:]`); with no space present the Go
code panics on the `-1` slice bound, modelled by `none`. -/
def roomMsgParts (s : String) : Option (String × String) :=
  match indexOfSpace s.data with
  | none => none
  | some i => some (String.mk (s.data.take i), String.mk (s.data.drop (i + 1)))

/-- The text the daemon forwards to a room actor for `PRIVMSG`/`NOTICE`
(daemon.go:462-466): `command + " " + strings.TrimLeft(cols[1], ":")`. -/
def privmsgForwardText (command rest : String) : String :=
  command ++ " " ++ goTrimColons rest

/-- Result of a room actor step: the new room state, the lines written to
member connections, and whether the Go code would have panicked. -/
structure RoomOut where
  room : Room
  replies : List (Nat × String)
  panicked : Bool
deriving DecidableEq

/-- One iteration of `Room.Processor` (goircd.go:222-317). -/
def roomStep (host : String) (room : Room) (ev : ClientEvent) : RoomOut :=
  let client := ev.client
  match ev.eventType with
  | .eventNew =>
    let members := if isMember room client then room.members else room.members ++ [client]
    let room1 : Room := { room with members := members }
    let joinMsg := ":" ++ clientDisplay client ++ " JOIN " ++ room.name
    let nicknames := sortStrings (room1.members.map (·.nickname))
    ⟨room1,
      [sendTopicReply host room1 client] ++ roomBroadcast room1 joinMsg none ++
        [(client.id, replyNicknamed host client.nickname "353" ["=", room.name, joinWithSpace nicknames])] ++
        [(client.id, replyNicknamed host client.nickname "366" [room.name, "End of NAMES list"])],
      false⟩
  | .eventDel =>
    if !(isMember room client) then
      ⟨room, [(client.id, replyNicknamed host client.nickname "442" [room.name, "You are not on that channel"])], false⟩
    else
      let room1 : Room := { room with members := room.members.filter (fun m => !(m.id == client.id)) }
      let msg := ":" ++ clientDisplay client ++ " PART " ++ room.name ++ " :" ++ client.nickname
      ⟨room1, roomBroadcast room1 msg none, false⟩
  | .eventTopic =>
    if !(isMember room client) then
      ⟨room, [(client.id, replyParts host "442" [room.name, "You are not on that channel"])], false⟩
    else if ev.text = "" then
      ⟨room, [sendTopicReply host room client], false⟩
    else
      let room1 : Room := { room with topic := goTrimColons ev.text }
      let msg := ":" ++ clientDisplay client ++ " TOPIC " ++ room.name ++ " :" ++ room1.topic
      ⟨room1, roomBroadcast room1 msg none, false⟩
  | .eventWho =>
    ⟨room,
      room.members.map (fun m =>
        (client.id, replyNicknamed host client.nickname "352"
          [room.name, m.username, m.addr, host, m.nickname, "H", "0 " ++ m.realname])) ++
        [(client.id, replyNicknamed host client.nickname "315" [room.name, "End of /WHO list"])],
      false⟩
  | .eventMode =>
    if ev.text = "" then
      let mode := if room.key ≠ "" then "+k" else "+"
      ⟨room, [(client.id, mode324Line client.nickname room.name mode)], false⟩
    else if goHasPre ev.text "b" then
      ⟨room, [(client.id, replyNicknamed host client.nickname "368" [room.name, "End of channel ban list"])], false⟩
    else if goHasPre ev.text "-k" || goHasPre ev.text "+k" then
      if !(isMember room client) then
        ⟨room, [(client.id, replyParts host "442" [room.name, "You are not on that channel"])], false⟩
      else if goHasPre ev.text "+k" then
        let cols := goSplit ev.text ' '
        if cols.length = 1 then
          ⟨room, [(client.id, replyNotEnoughParameters host client "MODE")], false⟩
        else
          let room1 : Room := { room with key := cols.getD 1 "" }
          let msg := ":" ++ clientDisplay client ++ " MODE " ++ room.name ++ " +k " ++ room1.key
          ⟨room1, roomBroadcast room1 msg none, false⟩
      else
        let room1 : Room := { room with key := "" }
        let msg := ":" ++ clientDisplay client ++ " MODE " ++ room.name ++ " -k"
        ⟨room1, roomBroadcast room1 msg none, false⟩
    else
      ⟨room, [(client.id, replyNicknamed host client.nickname "472" [ev.text, "Unknown MODE flag"])], false⟩
  | .eventMsg =>
    match roomMsgParts ev.text with
    | none => ⟨room, [], true⟩
    | some (verb, rest) =>
      let msg := ":" ++ clientDisplay client ++ " " ++ verb ++ " " ++ room.name ++ " :" ++ rest
      ⟨room, roomBroadcast room msg (some client.id), false⟩
  | .eventTerm => ⟨room, [], false⟩

/-! ## Daemon actor (daemon.go)

`Daemon` combines the Go struct's fields with the model of the shared
connection handles (`conns`: id ↦ open?) — closing a connection is the one
effect that survives a client's removal from the registry.  The MOTD and
passwords files live on disk in Go; their contents are supplied as data
(`motd = none` models a missing/unset MOTD path, daemon.go:87). -/

structure Daemon where
  hostname : String
  version : String
  verbose : Bool
  motd : Option (List String)
  passwords : Option String
  passwordsFile : List String
  clients : List Client
  clientAliveness : List (Nat × ClientAlivenessState)
  rooms : List Room
  lastAlivenessCheck : Nat
  conns : List (Nat × Bool)
deriving DecidableEq

/-- `conn.Close()` on the client with the given id. -/
def closeConn (st : Daemon) (id : Nat) : Daemon :=
  { st with conns := setAssoc st.conns id false }

/-- Replace the room named `name` by `r1` in the daemon's room index. -/
def updateRoom (st : Daemon) (name : String) (r1 : Room) : Daemon :=
  { st with rooms := st.rooms.map (fun r => if r.name == name then r1 else r) }

/-- Apply `f` to the registry's record of the client with the given id
(a Go field write through the shared pointer). -/
def updateClient (st : Daemon) (id : Nat) (f : Client → Client) : Daemon :=
  { st with clients := st.clients.map (fun c => if c.id == id then f c else c) }

/-- daemon.go:76: `SendLusers`. -/
def sendLusers (st : Daemon) (c : Client) : List (Nat × String) :=
  let lusers := (st.clients.filter (·.registered)).length
  [(c.id, replyNicknamed st.hostname c.nickname "251"
    ["There are " ++ toString lusers ++ " users and 0 invisible on 1 servers"])]

/-- daemon.go:86: `SendMotd`; the file's lines are supplied in `st.motd`
(file reading is external I/O; the read-error branch is not modelled). -/
def sendMotd (st : Daemon) (c : Client) : List (Nat × String) :=
  match st.motd with
  | none => [(c.id, replyNicknamed st.hostname c.nickname "422" ["MOTD File is missing"])]
  | some ls =>
    [(c.id, replyNicknamed st.hostname c.nickname "375" ["- " ++ st.hostname ++ " Message of the day -"])] ++
      ls.map (fun s => (c.id, replyNicknamed st.hostname c.nickname "372" ["- " ++ s])) ++
      [(c.id, replyNicknamed st.hostname c.nickname "376" ["End of /MOTD command"])]

/-- Host part of `net.SplitHostPort` with `"Unknown"` on a parse error
(daemon.go:115-120). -/
def splitHostPort (s : String) : String :=
  match splitChar ':' s.data with
  | [h, _] => String.mk h
  | _ => "Unknown"

/-- daemon.go:106: `SendWhois`.  The inner loop compares the lowercased
query against `c.nickname` lowercased, and collects the subscribed rooms by
comparing `subscriber.nickname` against the lowercased query. -/
def sendWhois (st : Daemon) (c : Client) (nicknames : List String) : List (Nat × String) :=
  nicknames.foldl (fun rs nickRaw =>
    let nickname := goToLower nickRaw
    let found := st.clients.filter (fun cl => goToLower cl.nickname == nickname)
    if found.isEmpty then rs ++ [(c.id, replyNoNickChan st.hostname c nickname)]
    else
      rs ++ found.foldl (fun rs2 cl =>
        let h := splitHostPort cl.addr
        let subscriptions := sortStrings
          ((st.rooms.filter (fun r => r.members.any (fun m => m.nickname == nickname))).map (·.name))
        rs2 ++
          [(c.id, replyNicknamed st.hostname c.nickname "311" [cl.nickname, cl.username, h, "*", cl.realname])] ++
          [(c.id, replyNicknamed st.hostname c.nickname "312" [cl.nickname, st.hostname, st.hostname])] ++
          (match cl.away with
           | some a => [(c.id, replyNicknamed st.hostname c.nickname "301" [cl.nickname, a])]
           | none => []) ++
          [(c.id, replyNicknamed st.hostname c.nickname "319" [cl.nickname, joinWithSpace subscriptions])] ++
          [(c.id, replyNicknamed st.hostname c.nickname "318" [cl.nickname, "End of /WHOIS list"])]) []) []

/-- daemon.go:144: `SendList` (`cols` is the daemon's two-field split of the
whole line). -/
def sendList (st : Daemon) (c : Client) (cols : List String) : List (Nat × String) :=
  let names :=
    if cols.length > 1 && cols.getD 1 "" ≠ "" then
      goSplit ((goSplit (cols.getD 1 "") ' ').headD "") ','
    else st.rooms.map (·.name)
  (sortStrings names).foldl (fun rs name =>
    match st.rooms.find? (fun r => r.name == name) with
    | some r => rs ++ [(c.id, replyNicknamed st.hostname c.nickname "322"
        [name, toString r.members.length, r.topic])]
    | none => rs) []
    ++ [(c.id, replyNicknamed st.hostname c.nickname "323" ["End of /LIST"])]

/-! ## Registration sub-machine (daemon.go:169-242, `ClientRegister`) -/

/-- The command-specific part of `ClientRegister`: the possibly-mutated
client, the replies so far, and whether the Go code took an early `return`
(skipping the registration-completion block). -/
def clientRegisterStep (st : Daemon) (c : Client) (command : String) (cols : List String) :
    Client × List (Nat × String) × Bool :=
  match command with
  | "PASS" =>
    if cols.length = 1 || (cols.getD 1 "").length < 1 then
      (c, [(c.id, replyNotEnoughParameters st.hostname c "PASS")], true)
    else ({ c with password := cols.getD 1 "" }, [], false)
  | "NICK" =>
    if cols.length = 1 || (cols.getD 1 "").length < 1 then
      (c, [(c.id, replyParts st.hostname "431" ["No nickname given"])], true)
    else
      let nickname := goTrimOneColon (cols.getD 1 "")
      if st.clients.any (fun cl => cl.nickname == nickname) then
        (c, [(c.id, replyParts st.hostname "433" ["*", nickname, "Nickname is already in use"])], true)
      else if !(nickValid nickname) then
        (c, [(c.id, replyParts st.hostname "432" ["*", cols.getD 1 "", "Erroneous nickname"])], true)
      else ({ c with nickname := nickname }, [], false)
  | "USER" =>
    if cols.length = 1 then
      (c, [(c.id, replyNotEnoughParameters st.hostname c "USER")], true)
    else
      let args := goSplitN (cols.getD 1 "") 4
      if args.length < 4 then
        (c, [(c.id, replyNotEnoughParameters st.hostname c "USER")], true)
      else ({ c with username := args.headD "", realname := goTrimColons (args.getD 3 "") }, [], false)
  | _ => (c, [], false)

/-- The password-file check of the completion block (daemon.go:221-230):
some entry names this nickname with a different password.  A file line with
no colon would make the Go code panic on `lp[1]`; the model reads it as
an empty password field. -/
def passwordRejected (file : List String) (c : Client) : Bool :=
  file.any (fun entry =>
    entry ≠ "" &&
      (goSplit entry ':').headD "" == c.nickname && !((goSplit entry ':').getD 1 "" == c.password))

/-- daemon.go:169-242: `ClientRegister`.  File reading is external; the
passwords file's lines are carried in `st.passwordsFile` (the Go read-error
branch calls `log.Fatalf` and is not modelled). -/
def clientRegister (st : Daemon) (c : Client) (command : String) (cols : List String) :
    Daemon × List (Nat × String) :=
  let step := clientRegisterStep st c command cols
  let c1 := step.1
  let rs := step.2.1
  if step.2.2 then (updateClient st c.id (fun _ => c1), rs)
  else
    let st1 := updateClient st c.id (fun _ => c1)
    if c1.nickname ≠ "*" && c1.username ≠ "" then
      if st.passwords.any (fun p => p != "") then
        if c1.password = "" then
          (closeConn st1 c.id, rs ++ [(c.id, replyParts st.hostname "462" ["You may not register"])])
        else if passwordRejected st.passwordsFile c1 then
          (closeConn st1 c.id, rs ++ [(c.id, replyParts st.hostname "462" ["You may not register"])])
        else
          let c2 := { c1 with registered := true }
          let st2 := updateClient st1 c.id (fun _ => c2)
          (st2, rs ++
            [(c.id, replyNicknamed st.hostname c2.nickname "001" ["Hi, welcome to IRC"])] ++
            [(c.id, replyNicknamed st.hostname c2.nickname "002"
              ["Your host is " ++ st.hostname ++ ", running goircd " ++ st.version])] ++
            [(c.id, replyNicknamed st.hostname c2.nickname "003" ["This server was created sometime"])] ++
            [(c.id, replyNicknamed st.hostname c2.nickname "004" [st.hostname ++ " goircd o o"])] ++
            sendLusers st2 c2 ++ sendMotd st2 c2)
      else
        let c2 := { c1 with registered := true }
        let st2 := updateClient st1 c.id (fun _ => c2)
        (st2, rs ++
          [(c.id, replyNicknamed st.hostname c2.nickname "001" ["Hi, welcome to IRC"])] ++
          [(c.id, replyNicknamed st.hostname c2.nickname "002"
            ["Your host is " ++ st.hostname ++ ", running goircd " ++ st.version])] ++
          [(c.id, replyNicknamed st.hostname c2.nickname "003" ["This server was created sometime"])] ++
          [(c.id, replyNicknamed st.hostname c2.nickname "004" [st.hostname ++ " goircd o o"])] ++
          sendLusers st2 c2 ++ sendMotd st2 c2)
    else (st1, rs)

/-! ## JOIN and PART handlers (daemon.go:256-303, 412-424) -/

/-- One channel of `HandlerJoin`'s loop (daemon.go:265-302). -/
def handlerJoinOne (c : Client) (keys : List String) (acc : Daemon × List (Nat × String))
    (p : Nat × String) : Daemon × List (Nat × String) :=
  let st := acc.1
  let rs := acc.2
  let n := p.1
  let name := p.2
  if !(roomNameValid name) then (st, rs ++ [(c.id, replyNoChannel st.hostname c name)])
  else
    let key := if n < keys.length && keys.getD n "" ≠ "" then keys.getD n "" else ""
    match st.rooms.find? (fun r => r.name == name) with
    | some r =>
      if r.key ≠ "" && r.key ≠ key then
        (st, rs ++ [(c.id, replyNicknamed st.hostname c.nickname "475"
          [name, "Cannot join channel (+k) - bad key"])])
      else
        let out := roomStep st.hostname r ⟨c, .eventNew, ""⟩
        (updateRoom st name out.room, rs ++ out.replies)
    | none =>
      let out := roomStep st.hostname ⟨name, "", key, []⟩ ⟨c, .eventNew, ""⟩
      ({ st with rooms := st.rooms ++ [out.room] }, rs ++ out.replies)

/-- daemon.go:256: `HandlerJoin`.  `RoomRegister` creates the room and its
actor; a supplied key is stored before the `New` event is sent, so the model
creates the room with that key directly. -/
def handlerJoin (st : Daemon) (c : Client) (cmd : String) : Daemon × List (Nat × String) :=
  let args := goSplit cmd ' '
  let names := goSplit (args.headD "") ','
  let keys := if args.length > 1 then goSplit (args.getD 1 "") ',' else []
  names.enum.foldl (handlerJoinOne c keys) (st, [])

/-- One channel of the `PART` loop (daemon.go:417-424). -/
def handlerPartOne (c : Client) (acc : Daemon × List (Nat × String)) (name : String) :
    Daemon × List (Nat × String) :=
  let st := acc.1
  let rs := acc.2
  match st.rooms.find? (fun r => r.name == name) with
  | none => (st, rs ++ [(c.id, replyNoChannel st.hostname c name)])
  | some r =>
    let out := roomStep st.hostname r ⟨c, .eventDel, ""⟩
    (updateRoom st name out.room, rs ++ out.replies)

/-- The `PART` handler's loop over the comma-separated channel list. -/
def handlerPart (st : Daemon) (c : Client) (arg : String) : Daemon × List (Nat × String) :=
  (goSplit arg ',').foldl (handlerPartOne c) (st, [])

/-! ## Registered-client command dispatch (daemon.go:365-515) -/

/-- Result of dispatching one event: the new daemon state, lines written,
`cont` when the Go handler ended in `continue` (skipping the aliveness
refresh at daemon.go:517-520), `stuck` when the daemon blocked forever
sending on the nil channel `daemon.roomSinks[nil]` (daemon.go:462 after a
failed room lookup), and `panicked` when a room actor's goroutine panicked. -/
structure DispatchOut where
  st : Daemon
  replies : List (Nat × String)
  cont : Bool
  stuck : Bool
  panicked : Bool
deriving DecidableEq

/-- daemon.go:433-466: `NOTICE`/`PRIVMSG`.  When the target is neither a
client's nickname nor an existing room, the code replies `401` and then
unconditionally executes `daemon.roomSinks[r] <- ...` with `r = nil`; the
lookup of the nil key yields the zero-value nil channel and the send on it
blocks the daemon forever (`stuck`). -/
def dispatchPrivmsg (st : Daemon) (c : Client) (command : String) (cols : List String) : DispatchOut :=
  if cols.length = 1 then
    ⟨st, [(c.id, replyNicknamed st.hostname c.nickname "411"
      ["No recipient given (" ++ command ++ ")"])], true, false, false⟩
  else
    let cols2 := goSplitN (cols.getD 1 "") 2
    if cols2.length = 1 then
      ⟨st, [(c.id, replyNicknamed st.hostname c.nickname "412" ["No text to send"])], true, false, false⟩
    else
      let target := goToLower (cols2.headD "")
      match st.clients.find? (fun cl => cl.nickname == target) with
      | some cl =>
        let m := ":" ++ clientDisplay c ++ " " ++ command ++ " " ++ cl.nickname ++ " " ++ cols2.getD 1 ""
        ⟨st, [(cl.id, m)] ++
          (match cl.away with
           | some a => [(c.id, replyNicknamed st.hostname c.nickname "301" [cl.nickname, a])]
           | none => []),
          true, false, false⟩
      | none =>
        match st.rooms.find? (fun r => r.name == target) with
        | none => ⟨st, [(c.id, replyNoNickChan st.hostname c target)], false, true, false⟩
        | some r =>
          let out := roomStep st.hostname r
            ⟨c, .eventMsg, privmsgForwardText command (cols2.getD 1 "")⟩
          ⟨updateRoom st target out.room, out.replies, false, false, out.panicked⟩

/-- The `switch command` over a registered client's commands
(daemon.go:365-515).  `cols` is the two-field split of the line. -/
def dispatchCommand (st : Daemon) (c : Client) (command : String) (cols : List String) : DispatchOut :=
  match command with
  | "AWAY" =>
    if cols.length = 1 then
      ⟨updateClient st c.id (fun x => { x with away := none }),
        [(c.id, replyNicknamed st.hostname c.nickname "305" ["You are no longer marked as being away"])],
        true, false, false⟩
    else
      let msg := goTrimColons (cols.getD 1 "")
      ⟨updateClient st c.id (fun x => { x with away := some msg }),
        [(c.id, replyNicknamed st.hostname c.nickname "306" ["You have been marked as being away"])],
        false, false, false⟩
  | "JOIN" =>
    if cols.length = 1 || (cols.getD 1 "").length < 1 then
      ⟨st, [(c.id, replyNotEnoughParameters st.hostname c "JOIN")], true, false, false⟩
    else
      let out := handlerJoin st c (cols.getD 1 "")
      ⟨out.1, out.2, false, false, false⟩
  | "LIST" => ⟨st, sendList st c cols, false, false, false⟩
  | "LUSERS" => ⟨st, sendLusers st c, false, false, false⟩
  | "MODE" =>
    if cols.length = 1 || (cols.getD 1 "").length < 1 then
      ⟨st, [(c.id, replyNotEnoughParameters st.hostname c "MODE")], true, false, false⟩
    else
      let cols2 := goSplitN (cols.getD 1 "") 2
      if cols2.headD "" == c.username then
        if cols2.length = 1 then
          ⟨st, [(c.id, mode221Line c.nickname)], true, false, false⟩
        else
          ⟨st, [(c.id, replyNicknamed st.hostname c.nickname "501" ["Unknown MODE flag"])], true, false, false⟩
      else
        let name := cols2.headD ""
        match st.rooms.find? (fun r => r.name == name) with
        | none => ⟨st, [(c.id, replyNoChannel st.hostname c name)], true, false, false⟩
        | some r =>
          let out := roomStep st.hostname r
            ⟨c, .eventMode, if cols2.length = 1 then "" else cols2.getD 1 ""⟩
          ⟨updateRoom st name out.room, out.replies, false, false, out.panicked⟩
  | "MOTD" => ⟨st, sendMotd st c, false, false, false⟩
  | "PART" =>
    if cols.length = 1 || (cols.getD 1 "").length < 1 then
      ⟨st, [(c.id, replyNotEnoughParameters st.hostname c "PART")], true, false, false⟩
    else
      let out := handlerPart st c (cols.getD 1 "")
      ⟨out.1, out.2, false, false, false⟩
  | "PING" =>
    if cols.length = 1 then
      ⟨st, [(c.id, replyNicknamed st.hostname c.nickname "409" ["No origin specified"])], true, false, false⟩
    else
      ⟨st, [(c.id, reply st.hostname ("PONG " ++ st.hostname ++ " :" ++ cols.getD 1 ""))],
        false, false, false⟩
  | "PONG" => ⟨st, [], true, false, false⟩
  | "NOTICE" =>
    dispatchPrivmsg st c "NOTICE" cols
  | "PRIVMSG" =>
    dispatchPrivmsg st c "PRIVMSG" cols
  | "TOPIC" =>
    if cols.length = 1 then
      ⟨st, [(c.id, replyNotEnoughParameters st.hostname c "TOPIC")], true, false, false⟩
    else
      let cols2 := goSplitN (cols.getD 1 "") 2
      match st.rooms.find? (fun r => r.name == cols2.headD "") with
      | none => ⟨st, [(c.id, replyNoChannel st.hostname c (cols2.headD ""))], true, false, false⟩
      | some r =>
        let change := if cols2.length > 1 then cols2.getD 1 "" else ""
        let out := roomStep st.hostname r ⟨c, .eventTopic, change⟩
        ⟨updateRoom st r.name out.room, out.replies, false, false, out.panicked⟩
  | "WHO" =>
    if cols.length = 1 || (cols.getD 1 "").length < 1 then
      ⟨st, [(c.id, replyNotEnoughParameters st.hostname c "WHO")], true, false, false⟩
    else
      let name := (goSplit (cols.getD 1 "") ' ').headD ""
      match st.rooms.find? (fun r => r.name == name) with
      | none => ⟨st, [(c.id, replyNoChannel st.hostname c name)], true, false, false⟩
      | some r =>
        let out := roomStep st.hostname r ⟨c, .eventWho, ""⟩
        ⟨updateRoom st name out.room, out.replies, false, false, out.panicked⟩
  | "WHOIS" =>
    if cols.length = 1 || (cols.getD 1 "").length < 1 then
      ⟨st, [(c.id, replyNotEnoughParameters st.hostname c "WHOIS")], true, false, false⟩
    else
      let cols3 := goSplit (cols.getD 1 "") ' '
      let nicknames := goSplit ((cols3.getLast? ).getD "") ','
      ⟨st, sendWhois st c nicknames, false, false, false⟩
  | "VERSION" =>
    let debug := if st.verbose then "debug" else ""
    ⟨st, [(c.id, replyNicknamed st.hostname c.nickname "351"
      [st.version ++ "." ++ debug ++ " " ++ st.hostname ++ " :"])], false, false, false⟩
  | _ =>
    ⟨st, [(c.id, replyNicknamed st.hostname c.nickname "421" [command, "Unknown command"])],
      false, false, false⟩

/-! ## Liveness sweep and the daemon event loop (daemon.go:305-522) -/

/-- The per-client body of the aliveness sweep (daemon.go:312-331). -/
def sweepOne (host : String) (now : Nat) (acc : Daemon × List (Nat × String)) (c : Client) :
    Daemon × List (Nat × String) :=
  let st := acc.1
  let rs := acc.2
  match getAssoc st.clientAliveness c.id with
  | none => (st, rs)
  | some al =>
    if al.timestamp + PingTimeout < now then (closeConn st c.id, rs)
    else if !al.pingSent && decide (al.timestamp + PingThreshold < now) then
      if c.registered then
        ({ st with clientAliveness := setAssoc st.clientAliveness c.id ⟨true, al.timestamp⟩ },
          rs ++ [(c.id, "PING :" ++ host)])
      else (closeConn st c.id, rs)
    else (st, rs)

/-- daemon.go:311-333: run the liveness sweep when at least `AlivenessCheck`
has elapsed since the previous one (`lastAlivenessCheck.Add(...).Before(now)`
is a strict comparison). -/
def alivenessSweep (st : Daemon) (now : Nat) : Daemon × List (Nat × String) :=
  if st.lastAlivenessCheck + AlivenessCheck < now then
    let out := st.clients.foldl (sweepOne st.hostname now) (st, [])
    ({ out.1 with lastAlivenessCheck := now }, out.2)
  else (st, [])

/-- The dispatch part of `Daemon.Processor`'s loop body (daemon.go:335-516),
after the sweep.  `EventDel` forwards the event to every room actor
(processed inline); `QUIT` removes the client and closes its connection
without telling the rooms; an `EventMsg` from an unregistered client goes
to the registration sub-machine.  A `Del` or `Msg` event whose client
pointer was never registered in `daemon.clients` cannot arise from the real
framer flow; for `Del` the model falls back to a stub record for the
display fields used in the rooms' `PART` broadcasts. -/
def daemonDispatch (st : Daemon) (ev : DaemonEvent) (now : Nat) : DispatchOut :=
  match ev.eventType with
  | .eventNew =>
    if st.clients.any (fun cl => cl.id == ev.clientId) then
      ⟨{ st with clientAliveness := setAssoc st.clientAliveness ev.clientId ⟨false, now⟩ },
        [], false, false, false⟩
    else
      let st1 : Daemon :=
        { st with clients := st.clients ++ [newClient ev.clientId ev.addr],
                  clientAliveness := setAssoc st.clientAliveness ev.clientId ⟨false, now⟩,
                  conns := setAssoc st.conns ev.clientId true }
      ⟨st1, [], false, false, false⟩
  | .eventDel =>
    let c := (st.clients.find? (fun cl => cl.id == ev.clientId)).getD (newClient ev.clientId ev.addr)
    let outs := st.rooms.map (fun r => roomStep st.hostname r ⟨c, .eventDel, ""⟩)
    let st1 : Daemon :=
      { st with clients := st.clients.filter (fun cl => !(cl.id == ev.clientId)),
                clientAliveness := delAssoc st.clientAliveness ev.clientId,
                rooms := outs.map (·.room) }
    ⟨st1, outs.foldl (fun acc o => acc ++ o.replies) [], false, false, outs.any (·.panicked)⟩
  | .eventMsg =>
    match st.clients.find? (fun cl => cl.id == ev.clientId) with
    | none => ⟨st, [], true, false, false⟩
    | some c =>
      let cols := goSplitN ev.text 2
      let command := goToUpper (cols.headD "")
      if command == "QUIT" then
        let st1 : Daemon :=
          { st with clients := st.clients.filter (fun cl => !(cl.id == ev.clientId)),
                    clientAliveness := delAssoc st.clientAliveness ev.clientId }
        ⟨closeConn st1 ev.clientId, [], true, false, false⟩
      else if !c.registered then
        let out := clientRegister st c command cols
        ⟨out.1, out.2, true, false, false⟩
      else dispatchCommand st c command cols
  | _ => ⟨st, [], false, false, false⟩

/-- One iteration of `Daemon.Processor`'s event loop (daemon.go:305-522):
liveness sweep, dispatch, then — unless the handler ended in `continue` or
the daemon blocked — the aliveness refresh of daemon.go:517-520. -/
def processEvent (st0 : Daemon) (ev : DaemonEvent) (now : Nat) : DispatchOut :=
  let swept := alivenessSweep st0 now
  let d := daemonDispatch swept.1 ev now
  let stB := d.st
  let stC :=
    if d.cont || d.stuck then stB
    else
      match getAssoc stB.clientAliveness ev.clientId with
      | some _ => { stB with clientAliveness := setAssoc stB.clientAliveness ev.clientId ⟨false, now⟩ }
      | none => stB
  ⟨stC, swept.2 ++ d.replies, d.cont, d.stuck, d.panicked⟩

/-- Run the daemon over a sequence of timestamped events.  Once the daemon
is stuck on the nil-channel send, no further event is ever consumed. -/
def runEvents (st : Daemon) : List (DaemonEvent × Nat) → DispatchOut
  | [] => ⟨st, [], false, false, false⟩
  | (ev, t) :: rest =>
    let o := processEvent st ev t
    if o.stuck then o
    else
      let o2 := runEvents o.st rest
      ⟨o2.st, o.replies ++ o2.replies, o2.cont, o2.stuck, o.panicked || o2.panicked⟩

/-- The daemon state visible at wall-clock time `t`: the result of the
events that arrived up to `t` (the daemon only ever acts when an event
arrives; there is no timer goroutine). -/
def stateAtTime (st : Daemon) (evs : List (DaemonEvent × Nat)) (t : Nat) : Daemon :=
  (runEvents st (evs.filter (fun p => p.2 ≤ t))).st

/-! ## Concrete demonstration states -/

/-- A registered client, as after `NICK alice` / `USER alice ...`. -/
def aliceReg : Client := ⟨0, "10.0.0.1:5555", true, "alice", "alice", "Alice A", "", none⟩

/-- A freshly connected, unregistered client. -/
def bobNew : Client := ⟨1, "10.0.0.2:5556", false, "*", "", "", "", none⟩

/-- Daemon with registered `alice` (id 0) and unregistered client id 1. -/
def regDemoState : Daemon :=
  ⟨"srv", "1.0", false, none, none, [], [aliceReg, bobNew],
    [(0, ⟨false, 0⟩), (1, ⟨false, 0⟩)], [], 0, [(0, true), (1, true)]⟩

/-- Daemon with only registered `alice`, who has an outstanding server PING
(`pingSent = true`) and last-activity timestamp 0; last sweep at 95. -/
def pongDemoState : Daemon :=
  ⟨"srv", "1.0", false, none, none, [], [aliceReg], [(0, ⟨true, 0⟩)], [], 95, [(0, true)]⟩

/-- Daemon with only registered `alice`, fresh aliveness at time 0. -/
def idleDemoState : Daemon :=
  ⟨"srv", "1.0", false, none, none, [], [aliceReg], [(0, ⟨false, 0⟩)], [], 0, [(0, true)]⟩

/-- A room `#r` with `alice` as its only member and no topic or key. -/
def demoRoom : Room := ⟨"#r", "", "", [aliceReg]⟩

/-! ## Shared lemmas about the framer -/

/-- Kick condition of the read loop: whenever the unconsumed byte count
equals `BufSize` (1500) at the top of an iteration, the framer emits `Del`
and stops, whatever input is still pending. -/
theorem framer_kick (chunks : List (List Char)) (buf : List Char) (h : buf.length = BufSize) :
    framer chunks buf = [(EventType.eventDel, "")] := by
  unfold framer
  rw [h]
  simp

/-- A buffer of repeated `'a'`s contains no CRLF: the `CheckMore` scan
extracts no line and keeps the whole buffer. -/
theorem splitCRLF_replicate_a (n : Nat) :
    splitCRLF (List.replicate n 'a') = ([], List.replicate n 'a') := by
  induction n with
  | zero => rfl
  | succ n ih =>
    rw [List.replicate_succ]
    show splitCRLF ('a' :: List.replicate n 'a') = _
    rw [show splitCRLF ('a' :: List.replicate n 'a') =
      (match (splitCRLF (List.replicate n 'a')).1 with
       | [] => ([], 'a' :: (splitCRLF (List.replicate n 'a')).2)
       | l :: ls => (String.mk ('a' :: l.data) :: ls, (splitCRLF (List.replicate n 'a')).2)) from rfl]
    rw [ih]

/-- Step equation of the read loop in the non-kick case: read one chunk,
emit the complete lines, keep the remainder. -/
theorem framer_cons (c : List Char) (rest : List (List Char)) (buf : List Char)
    (h : ¬ buf.length = BufSize) :
    framer (c :: rest) buf =
      ((splitCRLF (buf ++ c)).1.map (fun l => (EventType.eventMsg, l))) ++
        framer rest (splitCRLF (buf ++ c)).2 := by
  conv_lhs => unfold framer
  rw [if_neg h]

/-! ## Claim C4 -/

/-- C4, counterexample: the claim says the framer kicks "exactly when the
3000-byte buffer fills"; in fact a client whose stream has delivered only
1500 bytes (half the allocation) without CRLF is already kicked, because the
loop-top check compares against `BufSize = 1500`, not against the buffer
allocation `BufSize*2` (client.go:67 vs client.go:73). -/
theorem c4_counterexample :
    framer [List.replicate 1500 'a'] [] = [(EventType.eventDel, "")] ∧
    (List.replicate 1500 'a').length < 2 * BufSize := by
  constructor
  · rw [framer_cons _ _ _ (by decide), List.nil_append, splitCRLF_replicate_a]
    dsimp only
    rw [framer_kick [] _ (by rw [List.length_replicate]; rfl)]
    rfl
  · rw [List.length_replicate]
    decide

/-- C4 (amended): the framer reads into a 3000-byte allocation but emits
`Del` and closes the connection exactly when the unconsumed byte count at
the top of the read loop equals `BufSize = 1500`; a long CRLF-free line is
cut off once 1500 unconsumed bytes have accumulated, so buffering stays
bounded by the allocation but the kick happens at half of it (and only on
exact equality). -/
theorem c4_amended_kick_at_bufsize (chunks : List (List Char)) (buf : List Char)
    (h : buf.length = BufSize) :
    framer chunks buf = [(EventType.eventDel, "")] :=
  framer_kick chunks buf h

/-- C4, witness: a concrete 1500-byte CRLF-free buffer is kicked even though
more input is pending. -/
theorem c4_amended_kick_at_bufsize_witness :
    (List.replicate 1500 'b').length = BufSize ∧
    framer [List.replicate 10 'a'] (List.replicate 1500 'b') = [(EventType.eventDel, "")] :=
  ⟨by rw [List.length_replicate]; rfl, c4_amended_kick_at_bufsize [List.replicate 10 'a']
    (List.replicate 1500 'b') (by rw [List.length_replicate]; rfl)⟩

/-! ## Claim C7 -/

/-- C7, counterexample: the framer does emit a `Msg` event with empty text —
a CRLF at the start of the stream is cut into the zero-length line and
forwarded (client.go:90 has no emptiness check). -/
theorem c7_counterexample :
    (EventType.eventMsg, "") ∈ framer [['\r', '\n']] [] := by decide

/-- C7 (amended): the framer emits one `Msg` event per CRLF-terminated line
with no filtering of empty lines: whenever the unconsumed stream continues
with an immediate CRLF, the next emitted event is `Msg("")`, which does
reach the daemon. -/
theorem c7_amended_empty_line_propagated (tail : List Char) (chunks : List (List Char)) :
    ∃ rest, framer (('\r' :: '\n' :: tail) :: chunks) [] = (EventType.eventMsg, "") :: rest := by
  rw [framer_cons _ _ _ (by decide), List.nil_append]
  rw [show splitCRLF ('\r' :: '\n' :: tail) = ("" :: (splitCRLF tail).1, (splitCRLF tail).2) from rfl]
  exact ⟨_, rfl⟩

/-! ## Claims C2, C3 (divergence of the code from the stated behavior) -/

/-- C2: on `PRIVMSG` to a target that is neither a nickname nor an existing
channel, the daemon replies `401` — but then executes the forward through
`daemon.roomSinks[r]` with the nil room reference, and the send on the nil
channel blocks the daemon forever (`stuck`); a subsequent `LUSERS` from the
same client is never processed, contradicting the claim that no event is
forwarded and processing continues. -/
theorem c2_privmsg_unknown_target_blocks_daemon :
    (processEvent regDemoState ⟨0, "10.0.0.1:5555", .eventMsg, "PRIVMSG nobody :hi"⟩ 5).stuck = true ∧
    (processEvent regDemoState ⟨0, "10.0.0.1:5555", .eventMsg, "PRIVMSG nobody :hi"⟩ 5).replies
      = [(0, ":srv 401 alice nobody :No such nick/channel")] ∧
    (runEvents regDemoState
      [(⟨0, "10.0.0.1:5555", .eventMsg, "PRIVMSG nobody :hi"⟩, 5),
       (⟨0, "10.0.0.1:5555", .eventMsg, "LUSERS"⟩, 6)]).replies
      = [(0, ":srv 401 alice nobody :No such nick/channel")] := by decide

/-- C3: the `PONG` handler is `case "PONG": continue` (daemon.go:431-432),
and `continue` skips the aliveness refresh that sits at the bottom of the
event loop (daemon.go:517-520): after `alice` answers the server's PING
with `PONG` at time 100, her aliveness record still reads
`{pingSent := true, timestamp := 0}` instead of the claimed
`{pingSent := false, timestamp := 100}`.  A command that falls through to
the loop bottom (here `LUSERS`) does refresh. -/
theorem c3_pong_skips_aliveness_refresh :
    (processEvent pongDemoState ⟨0, "10.0.0.1:5555", .eventMsg, "PONG"⟩ 100).st.clientAliveness
      = [(0, ⟨true, 0⟩)] ∧
    (processEvent pongDemoState ⟨0, "10.0.0.1:5555", .eventMsg, "LUSERS"⟩ 100).st.clientAliveness
      = [(0, ⟨false, 100⟩)] := by decide

/-! ## Claim C1, counterexample -/

/-- C1, counterexample: with registered client `alice` present, an
unregistered client's `NICK Alice` — differing from `alice` only in letter
case — is accepted (no reply at all, nickname set to `Alice`) rather than
rejected with `433`, because daemon.go:186 compares nicknames with `==`. -/
theorem c1_counterexample :
    goToLower "Alice" = goToLower "alice" ∧ "Alice" ≠ "alice" ∧
    (processEvent regDemoState ⟨1, "10.0.0.2:5556", .eventMsg, "NICK Alice"⟩ 5).replies = [] ∧
    ((processEvent regDemoState ⟨1, "10.0.0.2:5556", .eventMsg, "NICK Alice"⟩ 5).st.clients.map
      (fun c => (c.id, c.nickname))) = [(0, "alice"), (1, "Alice")] := by decide

/-! ## Claim C6, counterexample -/

/-- The only event of the demonstration trace: an unrelated client connects
at t = 300.  Client 0 itself last showed activity at t = 0. -/
def idleTrace : List (DaemonEvent × Nat) := [(⟨1, "10.0.0.3:7777", .eventNew, ""⟩, 300)]

/-- C6, counterexample: the liveness sweep runs only when the daemon
receives an event, so with no event arriving before t = 300 the idle
client's connection is still open at t = 195, well past the claimed bound
`deadline (180) + check interval (10)`; it is closed only when the t = 300
event finally triggers a sweep. -/
theorem c6_counterexample :
    PingTimeout + AlivenessCheck < 195 ∧
    getAssoc (stateAtTime idleDemoState idleTrace 195).conns 0 = some true ∧
    getAssoc (stateAtTime idleDemoState idleTrace 300).conns 0 = some false := by decide

/-! ## Claim C8, counterexample -/

/-- C8, counterexample: the `Topic` handler stores
`strings.TrimLeft(event.text, ":")` (goircd.go:260), which strips every
leading colon: topic argument `::hello` yields stored topic `hello`, not
the claimed `:hello`. -/
theorem c8_counterexample :
    (roomStep "srv" demoRoom ⟨aliceReg, .eventTopic, "::hello"⟩).room.topic = "hello" ∧
    "hello" ≠ ":hello" := by decide

/-! ## Claim C9, counterexample -/

/-- C9, counterexample: the `324` channel-mode reply (goircd.go:276) and the
`221` user-mode reply (daemon.go:393) are sent through raw `Client.Msg`,
without the `:<hostname>` prefix all other server replies carry. -/
theorem c9_counterexample :
    (roomStep "srv" demoRoom ⟨aliceReg, .eventMode, ""⟩).replies = [(0, mode324Line "alice" "#r" "+")] ∧
    goHasPre (mode324Line "alice" "#r" "+") ":" = false ∧
    (processEvent regDemoState ⟨0, "10.0.0.1:5555", .eventMsg, "MODE alice"⟩ 5).replies
      = [(0, mode221Line "alice")] ∧
    goHasPre (mode221Line "alice") ":" = false := by decide

/-! ## Claim C8, amended -/

/-- C8 (amended): on a `Topic` event with non-empty text from a channel
member, the channel actor stores `strings.TrimLeft(text, ":")` — the text
with every leading colon stripped — as the new topic (goircd.go:260); a
topic argument of `::hello` yields the stored topic `hello`. -/
theorem c8_amended_topic_strips_all_colons (host : String) (room : Room) (client : Client)
    (text : String) (hm : isMember room client = true) (ht : text ≠ "") :
    (roomStep host room ⟨client, .eventTopic, text⟩).room.topic = goTrimColons text := by
  simp [roomStep, hm, ht]

/-- C8, witness: the member `alice` setting topic `::hello` on `#r`. -/
theorem c8_amended_topic_strips_all_colons_witness :
    isMember demoRoom aliceReg = true ∧ "::hello" ≠ "" ∧
    (roomStep "srv" demoRoom ⟨aliceReg, .eventTopic, "::hello"⟩).room.topic = goTrimColons "::hello" :=
  ⟨by decide, by decide,
    c8_amended_topic_strips_all_colons "srv" demoRoom aliceReg "::hello" (by decide) (by decide)⟩

/-! ## Claim C9, amended -/

/-- C9 (amended): every reply produced through the reply formatter
(`Reply`/`ReplyParts`/`ReplyNicknamed`) is of the form
`:<hostname> <code> <targets...> :<trailing>`, but the `324` channel-mode
reply and the `221` user-mode reply are sent raw through `Client.Msg` and
begin with the numeric code instead of `:<hostname>`. -/
theorem c9_amended_reply_prefixes :
    (∀ (host code : String) (parts : List String),
        ∃ t, replyParts host code parts = ":" ++ host ++ " " ++ t) ∧
    (∀ nick room mode : String, goHasPre (mode324Line nick room mode) ":" = false) ∧
    (∀ nick : String, goHasPre (mode221Line nick) ":" = false) := by
  refine ⟨fun host code parts => ⟨_, rfl⟩, fun nick room mode => ?_, fun nick => ?_⟩
  · obtain ⟨nd⟩ := nick; obtain ⟨rd⟩ := room; obtain ⟨md⟩ := mode
    rfl
  · obtain ⟨nd⟩ := nick
    rfl

/-! ## Claim C10 -/

/-- A list followed by a space and more characters always has a space. -/
theorem indexOfSpace_append_space (l m : List Char) :
    (indexOfSpace (l ++ ' ' :: m)).isSome = true := by
  induction l with
  | nil => rfl
  | cons c rest ih =>
    show (if c = ' ' then some 0 else (indexOfSpace (rest ++ ' ' :: m)).map (· + 1)).isSome = true
    by_cases h : c = ' '
    · simp [h]
    · cases hi : indexOfSpace (rest ++ ' ' :: m) with
      | none => rw [hi] at ih; exact absurd ih (by decide)
      | some k => simp [h, hi]

/-- `indexOfSpace` fails exactly on space-free inputs. -/
theorem indexOfSpace_none_iff (l : List Char) : indexOfSpace l = none ↔ ' ' ∉ l := by
  induction l with
  | nil => simp [indexOfSpace]
  | cons c rest ih =>
    by_cases h : c = ' '
    · simp [indexOfSpace, h]
    · simp [indexOfSpace, h, ih, Option.map_eq_none', List.mem_cons,
        show ¬(' ' = c) from fun he => h he.symm]

/-- The slicing of a room `Msg` event succeeds exactly when `indexOfSpace`
succeeds on the text. -/
theorem roomMsgParts_isSome (s : String) :
    (roomMsgParts s).isSome = (indexOfSpace s.data).isSome := by
  unfold roomMsgParts
  cases indexOfSpace s.data <;> rfl

/-- The daemon's forwarded `<VERB> <text>` always contains a space, so the
room actor's slicing is defined on it. -/
theorem forwardText_sliceable (command rest : String) :
    (roomMsgParts (privmsgForwardText command rest)).isSome = true := by
  rw [roomMsgParts_isSome]
  obtain ⟨cd⟩ := command
  show (indexOfSpace ((String.mk cd ++ " " ++ goTrimColons rest)).data).isSome = true
  rw [String.data_append, String.data_append, List.append_assoc]
  exact indexOfSpace_append_space cd (goTrimColons rest).data

/-- The room actor's `Msg` handler panics exactly when the text is
space-free. -/
theorem roomStep_msg_panicked (host : String) (room : Room) (client : Client) (s : String) :
    (roomStep host room ⟨client, .eventMsg, s⟩).panicked = !(roomMsgParts s).isSome := by
  cases hi : roomMsgParts s with
  | none => simp [roomStep, hi]
  | some p => obtain ⟨v, r⟩ := p; simp [roomStep, hi]

/-- C10: every `Msg` text the daemon forwards to a channel actor is
`<VERB> <text>` and contains a space; the channel actor's `Msg` slicing is
defined exactly on texts containing a space; hence the actor never panics
on a daemon-forwarded message. -/
theorem c10_forwarded_msg_sliceable :
    (∀ command rest : String, (roomMsgParts (privmsgForwardText command rest)).isSome = true) ∧
    (∀ t : String, (roomMsgParts t).isSome = true ↔ ' ' ∈ t.data) ∧
    (∀ (host : String) (room : Room) (client : Client) (command rest : String),
        (roomStep host room ⟨client, .eventMsg, privmsgForwardText command rest⟩).panicked = false) := by
  refine ⟨forwardText_sliceable, fun t => ?_, fun host room client command rest => ?_⟩
  · rw [roomMsgParts_isSome, Option.isSome_iff_ne_none]
    constructor
    · intro h
      by_contra hmem
      exact h ((indexOfSpace_none_iff t.data).mpr hmem)
    · intro hmem hnone
      exact (indexOfSpace_none_iff t.data).mp hnone hmem
  · rw [roomStep_msg_panicked, forwardText_sliceable]
    rfl

/-! ## Shared lemmas: sweep and event-loop plumbing -/

/-- The sweep body never touches the room index. -/
theorem sweepOne_rooms_eq (host : String) (now : Nat) (acc : Daemon × List (Nat × String)) (c : Client) :
    ((sweepOne host now acc c).1).rooms = (acc.1).rooms := by
  unfold sweepOne
  rcases acc with ⟨s, rs⟩
  dsimp only
  cases getAssoc s.clientAliveness c.id with
  | none => rfl
  | some al =>
    dsimp only
    split
    · rfl
    · split
      · split <;> rfl
      · rfl

/-- Folding the sweep over the registry never touches the room index. -/
theorem foldl_sweepOne_rooms_eq (host : String) (now : Nat) (l : List Client)
    (acc : Daemon × List (Nat × String)) :
    ((l.foldl (sweepOne host now) acc).1).rooms = (acc.1).rooms := by
  induction l generalizing acc with
  | nil => rfl
  | cons c rest ih => rw [List.foldl_cons, ih, sweepOne_rooms_eq]

/-- The liveness sweep never touches the room index. -/
theorem alivenessSweep_rooms_eq (st : Daemon) (now : Nat) :
    ((alivenessSweep st now).1).rooms = st.rooms := by
  unfold alivenessSweep
  split
  · exact foldl_sweepOne_rooms_eq st.hostname now st.clients (st, [])
  · rfl

/-- After a room actor processes `Del` for a client, that client is not
among the members: it was either removed (goircd.go:247) or was already
absent (goircd.go:243-245). -/
theorem roomStep_del_not_member (host : String) (room : Room) (c : Client) (txt : String) :
    ∀ m ∈ (roomStep host room ⟨c, .eventDel, txt⟩).room.members, ¬ m.id = c.id := by
  by_cases h : isMember room c
  · simp [roomStep, h, List.mem_filter]
  · simp [roomStep, h]
    simp [isMember] at h
    exact h

/-- Dispatching `Del` forwards it to every room actor; afterwards the
client is in no room's member set, and the daemon neither skipped the loop
bottom nor blocked. -/
theorem daemonDispatch_del_purges (st : Daemon) (ev : DaemonEvent) (now : Nat)
    (h : ev.eventType = .eventDel) :
    (daemonDispatch st ev now).cont = false ∧ (daemonDispatch st ev now).stuck = false ∧
    ∀ r ∈ (daemonDispatch st ev now).st.rooms, ∀ m ∈ r.members, ¬ m.id = ev.clientId := by
  unfold daemonDispatch
  rw [h]
  dsimp only
  refine ⟨rfl, rfl, ?_⟩
  intro r hr
  simp only [List.mem_map] at hr
  obtain ⟨out, hout, rfl⟩ := hr
  obtain ⟨r0, hr0, rfl⟩ := hout
  intro m hm
  have hcid : ((st.clients.find? (fun cl => cl.id == ev.clientId)).getD
      (newClient ev.clientId ev.addr)).id = ev.clientId := by
    cases hf : st.clients.find? (fun cl => cl.id == ev.clientId) with
    | none => simp [hf, newClient]
    | some c2 =>
      simp only [hf, Option.getD_some]
      have := List.find?_some hf
      simpa using this
  have hh := roomStep_del_not_member st.hostname r0 _ "" m hm
  rw [hcid] at hh
  exact hh

/-- The aliveness refresh at the loop bottom never touches the room index. -/
theorem processEvent_rooms_eq (st : Daemon) (ev : DaemonEvent) (now : Nat) :
    (processEvent st ev now).st.rooms
      = (daemonDispatch (alivenessSweep st now).1 ev now).st.rooms := by
  unfold processEvent
  dsimp only
  split
  · rfl
  · split <;> rfl

/-- The loop's `stuck` outcome is the dispatch's. -/
theorem processEvent_stuck_eq (st : Daemon) (ev : DaemonEvent) (now : Nat) :
    (processEvent st ev now).stuck = (daemonDispatch (alivenessSweep st now).1 ev now).stuck := rfl

/-- A non-blocking event hands the loop on to the rest of the trace. -/
theorem runEvents_cons_of_not_stuck (st : Daemon) (ev : DaemonEvent) (t : Nat)
    (rest : List (DaemonEvent × Nat)) (h : (processEvent st ev t).stuck = false) :
    (runEvents st ((ev, t) :: rest)).st = (runEvents (processEvent st ev t).st rest).st := by
  rw [runEvents]
  dsimp only
  rw [if_neg (by rw [h]; exact Bool.false_ne_true)]

/-- `QUIT` removes the client and closes its connection without blocking,
and leaves the room index untouched — the rooms learn of the departure only
from the framer's subsequent `Del` event (triggered by the closed
connection). -/
theorem processEvent_quit (st : Daemon) (cid : Nat) (addr : String) (t : Nat) :
    (processEvent st ⟨cid, addr, .eventMsg, "QUIT"⟩ t).stuck = false ∧
    (processEvent st ⟨cid, addr, .eventMsg, "QUIT"⟩ t).st.rooms = st.rooms := by
  unfold processEvent daemonDispatch
  dsimp only
  cases hf : ((alivenessSweep st t).1).clients.find? (fun cl => cl.id == cid) with
  | none =>
    simp [hf, alivenessSweep_rooms_eq]
  | some c =>
    dsimp only
    rw [if_pos (show (goToUpper ((goSplitN "QUIT" 2).headD "") == "QUIT") = true from by decide)]
    simp [closeConn, alivenessSweep_rooms_eq]

/-! ## Claim C5 -/

/-- C5: after a disconnect the client is absent from every channel's
member set once the resulting events are processed.  A framing overflow or
read error produces the single event `Del`; the `QUIT` path closes the
connection (making the framer's read fail), so its resulting events are
`Msg("QUIT")` followed by the framer's `Del`; in both cases the `Del`
reaches every channel actor and the client ends up in no member set. -/
theorem c5_disconnect_absent_from_all_rooms (st : Daemon) (cid : Nat) (addr : String) (tq td : Nat) :
    (∀ r ∈ (runEvents st [(⟨cid, addr, .eventDel, ""⟩, td)]).st.rooms,
        ∀ m ∈ r.members, ¬ m.id = cid) ∧
    (∀ r ∈ (runEvents st [(⟨cid, addr, .eventMsg, "QUIT"⟩, tq),
        (⟨cid, addr, .eventDel, ""⟩, td)]).st.rooms,
        ∀ m ∈ r.members, ¬ m.id = cid) := by
  have hdelstuck : ∀ s : Daemon, (processEvent s ⟨cid, addr, .eventDel, ""⟩ td).stuck = false :=
    fun s => by rw [processEvent_stuck_eq]; exact (daemonDispatch_del_purges _ _ _ rfl).2.1
  have hpurge : ∀ s : Daemon, ∀ r ∈ (processEvent s ⟨cid, addr, .eventDel, ""⟩ td).st.rooms,
      ∀ m ∈ r.members, ¬ m.id = cid := by
    intro s
    rw [processEvent_rooms_eq]
    exact (daemonDispatch_del_purges _ _ _ rfl).2.2
  constructor
  · rw [runEvents_cons_of_not_stuck _ _ _ _ (hdelstuck st)]
    exact hpurge st
  · rw [runEvents_cons_of_not_stuck _ _ _ _ (processEvent_quit st cid addr tq).1]
    rw [runEvents_cons_of_not_stuck _ _ _ _ (hdelstuck _)]
    exact hpurge _

/-! ## Shared lemmas: Go map operations -/

/-- Updating a key then reading it yields the written value. -/
theorem getAssoc_setAssoc_self {β : Type} (l : List (Nat × β)) (k : Nat) (v : β) :
    getAssoc (setAssoc l k v) k = some v := by
  induction l with
  | nil => simp [setAssoc, getAssoc]
  | cons p rest ih =>
    by_cases hp : p.1 = k
    · simp [setAssoc, getAssoc, hp]
    · simp [setAssoc, getAssoc, hp, ih]

/-- Updating one key leaves the others' values unchanged. -/
theorem getAssoc_setAssoc_ne {β : Type} (l : List (Nat × β)) (k k2 : Nat) (v : β) (h : ¬ k = k2) :
    getAssoc (setAssoc l k v) k2 = getAssoc l k2 := by
  induction l with
  | nil => simp [setAssoc, getAssoc, h]
  | cons p rest ih =>
    by_cases hp : p.1 = k
    · simp [setAssoc, getAssoc, hp, h]
    · simp [setAssoc, getAssoc, hp, ih]

/-- A connection recorded as closed stays closed across any further close. -/
theorem getAssoc_close_mono (l : List (Nat × Bool)) (k i : Nat)
    (h : getAssoc l i = some false) : getAssoc (setAssoc l k false) i = some false := by
  by_cases hk : k = i
  · subst hk
    exact getAssoc_setAssoc_self l k false
  · rw [getAssoc_setAssoc_ne l k i false hk]
    exact h

/-! ## Shared lemmas: the sweep closes expired clients and touches nothing else -/

/-- The sweep body never touches the registry. -/
theorem sweepOne_clients_eq (host : String) (now : Nat) (acc : Daemon × List (Nat × String))
    (c : Client) : ((sweepOne host now acc c).1).clients = (acc.1).clients := by
  unfold sweepOne
  rcases acc with ⟨s, rs⟩
  dsimp only
  cases getAssoc s.clientAliveness c.id with
  | none => rfl
  | some al =>
    dsimp only
    split
    · rfl
    · split
      · split <;> rfl
      · rfl

/-- The sweep body writes only `false` into the connection map. -/
theorem sweepOne_conns_false (host : String) (now : Nat) (acc : Daemon × List (Nat × String))
    (x : Client) (i : Nat) (h : getAssoc (acc.1).conns i = some false) :
    getAssoc ((sweepOne host now acc x).1).conns i = some false := by
  unfold sweepOne
  rcases acc with ⟨s, rs⟩
  dsimp only at h ⊢
  cases getAssoc s.clientAliveness x.id with
  | none => exact h
  | some al =>
    dsimp only
    split
    · exact getAssoc_close_mono s.conns x.id i h
    · split
      · split
        · exact h
        · exact getAssoc_close_mono s.conns x.id i h
      · exact h

/-- The sweep body leaves other clients' aliveness entries alone. -/
theorem sweepOne_aliveness_other (host : String) (now : Nat) (acc : Daemon × List (Nat × String))
    (x : Client) (i : Nat) (h : ¬ x.id = i) :
    getAssoc ((sweepOne host now acc x).1).clientAliveness i
      = getAssoc (acc.1).clientAliveness i := by
  unfold sweepOne
  rcases acc with ⟨s, rs⟩
  dsimp only
  cases getAssoc s.clientAliveness x.id with
  | none => rfl
  | some al =>
    dsimp only
    split
    · rfl
    · split
      · split
        · exact getAssoc_setAssoc_ne s.clientAliveness x.id i _ h
        · rfl
      · rfl

/-- Closedness survives the whole sweep fold. -/
theorem foldl_sweepOne_conns_false (host : String) (now : Nat) (l : List Client)
    (acc : Daemon × List (Nat × String)) (i : Nat) (h : getAssoc (acc.1).conns i = some false) :
    getAssoc ((l.foldl (sweepOne host now) acc).1).conns i = some false := by
  induction l generalizing acc with
  | nil => exact h
  | cons x rest ih =>
    rw [List.foldl_cons]
    exact ih _ (sweepOne_conns_false host now acc x i h)

/-- If a client in the swept list has an expired aliveness entry, its
connection is closed by the end of the fold. -/
theorem foldl_sweepOne_closes (host : String) (now : Nat) (l : List Client)
    (acc : Daemon × List (Nat × String)) (c : Client) (al : ClientAlivenessState)
    (hmem : c ∈ l) (hnd : (l.map (·.id)).Nodup)
    (hal : getAssoc (acc.1).clientAliveness c.id = some al)
    (hexp : al.timestamp + PingTimeout < now) :
    getAssoc ((l.foldl (sweepOne host now) acc).1).conns c.id = some false := by
  induction l generalizing acc with
  | nil => cases hmem
  | cons x rest ih =>
    rw [List.foldl_cons]
    rcases List.mem_cons.mp hmem with rfl | hmem2
    · have hclosed : getAssoc ((sweepOne host now acc c).1).conns c.id = some false := by
        unfold sweepOne
        rcases acc with ⟨s, rs⟩
        dsimp only at hal ⊢
        rw [hal]
        dsimp only
        rw [if_pos hexp]
        exact getAssoc_setAssoc_self s.conns c.id false
      exact foldl_sweepOne_conns_false host now rest _ c.id hclosed
    · have hxid : ¬ x.id = c.id := by
        intro he
        have hmm : c.id ∈ rest.map (·.id) := List.mem_map.mpr ⟨c, hmem2, rfl⟩
        rw [← he] at hmm
        exact (List.nodup_cons.mp hnd).1 hmm
      have hal2 : getAssoc ((sweepOne host now acc x).1).clientAliveness c.id = some al := by
        rw [sweepOne_aliveness_other host now acc x c.id hxid]
        exact hal
      exact ih _ hmem2 (List.nodup_cons.mp hnd).2 hal2

/-- The sweep fold never touches the registry. -/
theorem foldl_sweepOne_clients_eq (host : String) (now : Nat) (l : List Client)
    (acc : Daemon × List (Nat × String)) :
    ((l.foldl (sweepOne host now) acc).1).clients = (acc.1).clients := by
  induction l generalizing acc with
  | nil => rfl
  | cons x rest ih => rw [List.foldl_cons, ih, sweepOne_clients_eq]

/-- The liveness sweep never touches the registry. -/
theorem alivenessSweep_clients_eq (st : Daemon) (now : Nat) :
    ((alivenessSweep st now).1).clients = st.clients := by
  unfold alivenessSweep
  split
  · exact foldl_sweepOne_clients_eq st.hostname now st.clients (st, [])
  · rfl

/-- A due sweep closes the connection of every registry client whose
aliveness timestamp is more than `PingTimeout` old (daemon.go:317-320). -/
theorem alivenessSweep_closes (st : Daemon) (now : Nat) (c : Client) (al : ClientAlivenessState)
    (hc : c ∈ st.clients) (hnd : (st.clients.map (·.id)).Nodup)
    (hal : getAssoc st.clientAliveness c.id = some al)
    (hexp : al.timestamp + PingTimeout < now)
    (hdue : st.lastAlivenessCheck + AlivenessCheck < now) :
    getAssoc ((alivenessSweep st now).1).conns c.id = some false := by
  unfold alivenessSweep
  rw [if_pos hdue]
  exact foldl_sweepOne_closes st.hostname now st.clients (st, []) c al hc hnd hal hexp

/-! ## Shared lemmas: dispatch never reopens a connection -/

/-- One `JOIN` channel step never touches the connection map. -/
theorem handlerJoinOne_conns_eq (c : Client) (keys : List String)
    (acc : Daemon × List (Nat × String)) (p : Nat × String) :
    ((handlerJoinOne c keys acc p).1).conns = (acc.1).conns := by
  unfold handlerJoinOne
  dsimp only
  repeat' split
  all_goals rfl

/-- The `JOIN` fold never touches the connection map. -/
theorem foldl_handlerJoinOne_conns_eq (c : Client) (keys : List String)
    (l : List (Nat × String)) (acc : Daemon × List (Nat × String)) :
    ((l.foldl (handlerJoinOne c keys) acc).1).conns = (acc.1).conns := by
  induction l generalizing acc with
  | nil => rfl
  | cons x rest ih => rw [List.foldl_cons, ih, handlerJoinOne_conns_eq]

/-- `HandlerJoin` never touches the connection map. -/
theorem handlerJoin_conns_eq (st : Daemon) (c : Client) (cmd : String) :
    ((handlerJoin st c cmd).1).conns = st.conns := by
  unfold handlerJoin
  exact foldl_handlerJoinOne_conns_eq _ _ _ _

/-- One `PART` channel step never touches the connection map. -/
theorem handlerPartOne_conns_eq (c : Client) (acc : Daemon × List (Nat × String)) (name : String) :
    ((handlerPartOne c acc name).1).conns = (acc.1).conns := by
  unfold handlerPartOne
  dsimp only
  repeat' split
  all_goals rfl

/-- The `PART` fold never touches the connection map. -/
theorem foldl_handlerPartOne_conns_eq (c : Client) (l : List String)
    (acc : Daemon × List (Nat × String)) :
    ((l.foldl (handlerPartOne c) acc).1).conns = (acc.1).conns := by
  induction l generalizing acc with
  | nil => rfl
  | cons x rest ih => rw [List.foldl_cons, ih, handlerPartOne_conns_eq]

/-- The `PART` handler never touches the connection map. -/
theorem handlerPart_conns_eq (st : Daemon) (c : Client) (arg : String) :
    ((handlerPart st c arg).1).conns = st.conns := by
  unfold handlerPart
  exact foldl_handlerPartOne_conns_eq _ _ _

/-- `NOTICE`/`PRIVMSG` handling never touches the connection map. -/
theorem dispatchPrivmsg_conns_eq (st : Daemon) (c : Client) (command : String)
    (cols : List String) : ((dispatchPrivmsg st c command cols).st).conns = st.conns := by
  unfold dispatchPrivmsg
  dsimp only
  repeat' split
  all_goals rfl

/-- No registered-client command handler touches the connection map
(`QUIT` is handled before the switch). -/
theorem dispatchCommand_conns_eq (st : Daemon) (c : Client) (command : String)
    (cols : List String) : ((dispatchCommand st c command cols).st).conns = st.conns := by
  unfold dispatchCommand
  dsimp only
  repeat' split
  all_goals first
    | rfl
    | exact dispatchPrivmsg_conns_eq _ _ _ _
    | exact handlerJoin_conns_eq _ _ _
    | exact handlerPart_conns_eq _ _ _

/-- Registration only ever closes connections (the `462` paths), never
reopens one. -/
theorem clientRegister_conns_false (st : Daemon) (c : Client) (command : String)
    (cols : List String) (i : Nat) (h : getAssoc st.conns i = some false) :
    getAssoc ((clientRegister st c command cols).1).conns i = some false := by
  unfold clientRegister
  dsimp only
  repeat' split
  all_goals first
    | exact h
    | exact getAssoc_close_mono _ _ _ h

/-- Dispatch never reopens the connection of a client already in the
registry: `EventNew` inserts a connection only for an id that is not yet
registered, and every other write is a close. -/
theorem daemonDispatch_conns_false (st : Daemon) (ev : DaemonEvent) (now : Nat) (i : Nat)
    (hi : st.clients.any (fun cl => cl.id == i) = true)
    (h : getAssoc st.conns i = some false) :
    getAssoc ((daemonDispatch st ev now).st).conns i = some false := by
  unfold daemonDispatch
  split
  · split
    · exact h
    · next hguard =>
      dsimp only
      have hne : ¬ ev.clientId = i := fun he => hguard (he ▸ hi)
      rw [getAssoc_setAssoc_ne _ _ _ _ hne]
      exact h
  · exact h
  · split
    · exact h
    · dsimp only
      split
      · exact getAssoc_close_mono _ _ _ h
      · split
        · exact clientRegister_conns_false _ _ _ _ _ h
        · rw [dispatchCommand_conns_eq]
          exact h
  · exact h

/-- The aliveness refresh at the loop bottom never touches the connection
map. -/
theorem processEvent_conns_eq (st : Daemon) (ev : DaemonEvent) (now : Nat) :
    (processEvent st ev now).st.conns
      = (daemonDispatch (alivenessSweep st now).1 ev now).st.conns := by
  unfold processEvent
  dsimp only
  split
  · rfl
  · split <;> rfl

/-! ## Claim C6, amended -/

/-- C6 (amended): the liveness sweep runs only at the top of the daemon's
event loop; at the first event processed at a time `now` with at least the
check interval elapsed since the previous sweep, every registry client
whose last-activity timestamp is more than `PingTimeout` (180 s) old has
its connection closed — and nothing in the rest of that event's processing
reopens it.  (Without event traffic no sweep runs, which is what the
counterexample exhibits.) -/
theorem c6_amended_close_at_first_sweep (st : Daemon) (ev : DaemonEvent) (now : Nat) (c : Client)
    (al : ClientAlivenessState)
    (hc : c ∈ st.clients) (hnd : (st.clients.map (·.id)).Nodup)
    (hal : getAssoc st.clientAliveness c.id = some al)
    (hexp : al.timestamp + PingTimeout < now)
    (hdue : st.lastAlivenessCheck + AlivenessCheck < now) :
    getAssoc ((processEvent st ev now).st).conns c.id = some false := by
  rw [processEvent_conns_eq]
  apply daemonDispatch_conns_false
  · rw [alivenessSweep_clients_eq]
    exact List.any_eq_true.mpr ⟨c, hc, by simp⟩
  · exact alivenessSweep_closes st now c al hc hnd hal hexp hdue

/-- C6, witness: idle `alice` (last activity t = 0) is closed when the
t = 300 event triggers the sweep. -/
theorem c6_amended_close_at_first_sweep_witness :
    aliceReg ∈ idleDemoState.clients ∧
    (idleDemoState.clients.map (·.id)).Nodup ∧
    getAssoc idleDemoState.clientAliveness aliceReg.id = some ⟨false, 0⟩ ∧
    (⟨false, 0⟩ : ClientAlivenessState).timestamp + PingTimeout < 300 ∧
    idleDemoState.lastAlivenessCheck + AlivenessCheck < 300 ∧
    getAssoc ((processEvent idleDemoState ⟨1, "10.0.0.3:7777", .eventNew, ""⟩ 300).st).conns
      aliceReg.id = some false :=
  ⟨by decide, by decide, by decide, by decide, by decide,
    c6_amended_close_at_first_sweep idleDemoState ⟨1, "10.0.0.3:7777", .eventNew, ""⟩ 300
      aliceReg ⟨false, 0⟩ (by decide) (by decide) (by decide) (by decide) (by decide)⟩

/-! ## Claim C1: registry well-formedness (case-sensitive nickname uniqueness) -/

/-- The registry invariant the code actually maintains: client ids (pointer
identities) are distinct, and two distinct clients share a nickname only
when it is the pre-registration placeholder `"*"` — nickname comparison
being exact (case-sensitive `==`, daemon.go:186). -/
def clientsWF (l : List Client) : Prop :=
  (l.map (·.id)).Nodup ∧
  ∀ x ∈ l, ∀ y ∈ l, ¬ x.id = y.id → x.nickname = y.nickname → x.nickname = "*"

/-- `clientsWF` of the daemon's registry. -/
def registryWF (st : Daemon) : Prop := clientsWF st.clients

theorem clientsWF_filter (l : List Client) (pred : Client → Bool) (h : clientsWF l) :
    clientsWF (l.filter pred) := by
  constructor
  · have hs : (l.filter pred).Sublist l := List.filter_sublist l
    exact (hs.map (·.id)).nodup h.1
  · intro a ha b hb
    exact h.2 a (List.mem_of_mem_filter ha) b (List.mem_of_mem_filter hb)

theorem clientsWF_append_new (l : List Client) (id : Nat) (addr : String) (h : clientsWF l)
    (hfresh : ¬ l.any (fun cl => cl.id == id) = true) :
    clientsWF (l ++ [newClient id addr]) := by
  have hfr : ∀ cl ∈ l, ¬ cl.id = id := by
    intro cl hcl he
    exact hfresh (List.any_eq_true.mpr ⟨cl, hcl, by simp [he]⟩)
  constructor
  · rw [List.map_append]
    apply List.Nodup.append h.1 (by simp)
    intro a ha hb
    simp only [List.map_cons, List.map_nil, List.mem_singleton, newClient] at hb
    obtain ⟨cl, hcl, rfl⟩ := List.mem_map.mp ha
    exact hfr cl hcl hb
  · intro a ha b hb hne heq
    rcases List.mem_append.mp ha with ha2 | ha2 <;> rcases List.mem_append.mp hb with hb2 | hb2
    · exact h.2 a ha2 b hb2 hne heq
    · have hb3 : b = newClient id addr := List.mem_singleton.mp hb2
      rw [hb3] at heq
      rw [heq]
      rfl
    · have ha3 : a = newClient id addr := List.mem_singleton.mp ha2
      rw [ha3]
      rfl
    · have ha3 : a = newClient id addr := List.mem_singleton.mp ha2
      have hb3 : b = newClient id addr := List.mem_singleton.mp hb2
      rw [ha3, hb3] at hne
      exact absurd rfl hne

theorem map_id_update_ids_eq (l : List Client) (key : Nat) (c1 : Client) (hid : c1.id = key) :
    (l.map (fun x => if x.id == key then c1 else x)).map (·.id) = l.map (·.id) := by
  induction l with
  | nil => rfl
  | cons x rest ih =>
    simp only [List.map_cons, ih]
    by_cases hx : x.id = key
    · simp [hx, hid]
    · simp [hx]

theorem clientsWF_set (l : List Client) (key : Nat) (c1 : Client) (hid : c1.id = key)
    (h : clientsWF l)
    (hok : ∀ x ∈ l, ¬ x.id = key → x.nickname = c1.nickname → c1.nickname = "*") :
    clientsWF (l.map (fun x => if x.id == key then c1 else x)) := by
  constructor
  · rw [map_id_update_ids_eq l key c1 hid]
    exact h.1
  · intro a ha b hb hne heq
    obtain ⟨x0, hx0, rfl⟩ := List.mem_map.mp ha
    obtain ⟨y0, hy0, rfl⟩ := List.mem_map.mp hb
    by_cases hx1 : x0.id = key <;> by_cases hy1 : y0.id = key
    · simp only [hx1, hy1, beq_self_eq_true, if_pos] at hne
      simp at hne
    · simp only [show (x0.id == key) = true from by simp [hx1],
        show (y0.id == key) = false from by simp [hy1], if_pos, if_neg, Bool.false_eq_true,
        if_false, if_true] at hne heq ⊢
      exact hok y0 hy0 hy1 heq.symm
    · simp only [show (x0.id == key) = false from by simp [hx1],
        show (y0.id == key) = true from by simp [hy1], Bool.false_eq_true, if_false,
        if_true] at hne heq ⊢
      rw [heq]
      exact hok x0 hx0 hx1 heq
    · simp only [show (x0.id == key) = false from by simp [hx1],
        show (y0.id == key) = false from by simp [hy1], Bool.false_eq_true, if_false] at hne heq ⊢
      exact h.2 x0 hx0 y0 hy0 hne heq

theorem clientRegisterStep_id (st : Daemon) (c : Client) (command : String) (cols : List String) :
    ((clientRegisterStep st c command cols).1).id = c.id := by
  unfold clientRegisterStep
  dsimp only
  repeat' split
  all_goals rfl

theorem clientRegisterStep_nickname (st : Daemon) (c : Client) (command : String) (cols : List String) :
    ((clientRegisterStep st c command cols).1).nickname = c.nickname ∨
    ∀ x ∈ st.clients, ¬ x.nickname = ((clientRegisterStep st c command cols).1).nickname := by
  unfold clientRegisterStep
  dsimp only
  repeat' split
  all_goals try exact Or.inl rfl
  rename_i hlen hdup hre
  refine Or.inr fun x hx heq => hdup (List.any_eq_true.mpr ⟨x, hx, by simp [heq]⟩)

theorem clientsWF_nick_ok_of_mem (l : List Client) (h : clientsWF l) (c : Client) (hc : c ∈ l) (c1 : Client)
    (hid : c1.id = c.id) (hn : c1.nickname = c.nickname) :
    ∀ x ∈ l, ¬ x.id = c1.id → x.nickname = c1.nickname → c1.nickname = "*" := by
  intro x hx hxid heq
  rw [hn] at heq ⊢
  have hxc : ¬ x.id = c.id := by rw [← hid]; exact hxid
  have := h.2 x hx c hc hxc heq
  rw [← heq]
  exact this

theorem mem_updateClient_self (l : List Client) (c : Client) (hc : c ∈ l) (c1 : Client) :
    c1 ∈ l.map (fun x => if x.id == c.id then c1 else x) :=
  List.mem_map.mpr ⟨c, hc, by simp⟩

theorem clientRegister_registryWF (st : Daemon) (c : Client) (command : String) (cols : List String)
    (h : registryWF st) (hc : c ∈ st.clients) :
    registryWF (clientRegister st c command cols).1 := by
  have hid := clientRegisterStep_id st c command cols
  have hnick := clientRegisterStep_nickname st c command cols
  have hok1 : ∀ x ∈ st.clients, ¬ x.id = c.id →
      x.nickname = ((clientRegisterStep st c command cols).1).nickname →
      ((clientRegisterStep st c command cols).1).nickname = "*" := by
    rcases hnick with hn | hn
    · intro x hx hxid heq
      have := clientsWF_nick_ok_of_mem st.clients h c hc (clientRegisterStep st c command cols).1 hid hn
      exact this x hx (by rw [hid]; exact hxid) heq
    · intro x hx hxid heq
      exact absurd heq (hn x hx)
  have h1 : clientsWF ((updateClient st c.id (fun _ => (clientRegisterStep st c command cols).1)).clients) := by
    show clientsWF (st.clients.map (fun x => if x.id == c.id then (clientRegisterStep st c command cols).1 else x))
    exact clientsWF_set st.clients c.id (clientRegisterStep st c command cols).1 hid h hok1
  have hmem1 : (clientRegisterStep st c command cols).1
      ∈ (updateClient st c.id (fun _ => (clientRegisterStep st c command cols).1)).clients :=
    mem_updateClient_self st.clients c hc _
  have h2 : ∀ c2 : Client, c2.id = c.id →
      c2.nickname = ((clientRegisterStep st c command cols).1).nickname →
      clientsWF ((updateClient (updateClient st c.id (fun _ => (clientRegisterStep st c command cols).1))
        c.id (fun _ => c2)).clients) := by
    intro c2 h2id h2n
    show clientsWF (((updateClient st c.id (fun _ => (clientRegisterStep st c command cols).1)).clients).map
      (fun x => if x.id == c.id then c2 else x))
    apply clientsWF_set _ c.id c2 h2id h1
    intro x hx hxid heq
    exact clientsWF_nick_ok_of_mem _ h1 (clientRegisterStep st c command cols).1 hmem1 c2
      (by rw [h2id, hid]) h2n x hx (by rw [h2id]; exact hxid) heq
  unfold clientRegister
  dsimp only
  repeat' split
  all_goals first
    | exact h1
    | exact h2 _ hid rfl

theorem handlerJoinOne_clients_eq (c : Client) (keys : List String) (acc : Daemon × List (Nat × String))
    (p : Nat × String) : ((handlerJoinOne c keys acc p).1).clients = (acc.1).clients := by
  unfold handlerJoinOne
  dsimp only
  repeat' split
  all_goals rfl

theorem foldl_handlerJoinOne_clients_eq (c : Client) (keys : List String) (l : List (Nat × String))
    (acc : Daemon × List (Nat × String)) :
    ((l.foldl (handlerJoinOne c keys) acc).1).clients = (acc.1).clients := by
  induction l generalizing acc with
  | nil => rfl
  | cons x rest ih => rw [List.foldl_cons, ih, handlerJoinOne_clients_eq]

theorem handlerJoin_clients_eq (st : Daemon) (c : Client) (cmd : String) :
    ((handlerJoin st c cmd).1).clients = st.clients := by
  unfold handlerJoin
  exact foldl_handlerJoinOne_clients_eq _ _ _ _

theorem handlerPartOne_clients_eq (c : Client) (acc : Daemon × List (Nat × String)) (name : String) :
    ((handlerPartOne c acc name).1).clients = (acc.1).clients := by
  unfold handlerPartOne
  dsimp only
  repeat' split
  all_goals rfl

theorem foldl_handlerPartOne_clients_eq (c : Client) (l : List String) (acc : Daemon × List (Nat × String)) :
    ((l.foldl (handlerPartOne c) acc).1).clients = (acc.1).clients := by
  induction l generalizing acc with
  | nil => rfl
  | cons x rest ih => rw [List.foldl_cons, ih, handlerPartOne_clients_eq]

theorem handlerPart_clients_eq (st : Daemon) (c : Client) (arg : String) :
    ((handlerPart st c arg).1).clients = st.clients := by
  unfold handlerPart
  exact foldl_handlerPartOne_clients_eq _ _ _

theorem dispatchPrivmsg_clients_eq (st : Daemon) (c : Client) (command : String) (cols : List String) :
    ((dispatchPrivmsg st c command cols).st).clients = st.clients := by
  unfold dispatchPrivmsg
  dsimp only
  repeat' split
  all_goals rfl

theorem clientsWF_map_preserve (l : List Client) (g : Client → Client)
    (hg : ∀ x, (g x).id = x.id ∧ (g x).nickname = x.nickname) (h : clientsWF l) :
    clientsWF (l.map g) := by
  constructor
  · have he : ∀ l2 : List Client, (l2.map g).map (·.id) = l2.map (·.id) := by
      intro l2
      induction l2 with
      | nil => rfl
      | cons x rest ih => simp only [List.map_cons, ih, (hg x).1]
    rw [he]
    exact h.1
  · intro a ha b hb hne heq
    obtain ⟨x0, hx0, rfl⟩ := List.mem_map.mp ha
    obtain ⟨y0, hy0, rfl⟩ := List.mem_map.mp hb
    rw [(hg x0).1, (hg y0).1] at hne
    rw [(hg x0).2, (hg y0).2] at heq
    rw [(hg x0).2]
    exact h.2 x0 hx0 y0 hy0 hne heq

theorem dispatchCommand_registryWF (st : Daemon) (c : Client) (command : String) (cols : List String)
    (h : registryWF st) : registryWF (dispatchCommand st c command cols).st := by
  unfold dispatchCommand
  dsimp only
  repeat' split
  all_goals first
    | exact h
    | exact clientsWF_map_preserve st.clients _ (fun x => by dsimp only; split <;> exact ⟨rfl, rfl⟩) h
    | (show clientsWF _; rw [handlerJoin_clients_eq]; exact h)
    | (show clientsWF _; rw [handlerPart_clients_eq]; exact h)
    | (show clientsWF _; rw [dispatchPrivmsg_clients_eq]; exact h)

theorem daemonDispatch_registryWF (st : Daemon) (ev : DaemonEvent) (now : Nat) (h : registryWF st) :
    registryWF (daemonDispatch st ev now).st := by
  unfold daemonDispatch
  split
  · split
    · exact h
    · next hguard => exact clientsWF_append_new st.clients ev.clientId ev.addr h hguard
  · exact clientsWF_filter st.clients _ h
  · split
    · exact h
    · next c hf =>
      dsimp only
      split
      · exact clientsWF_filter st.clients _ h
      · split
        · exact clientRegister_registryWF st c _ _ h (List.mem_of_find?_eq_some hf)
        · exact dispatchCommand_registryWF st c _ _ h
  · exact h

theorem processEvent_clients_eq (st : Daemon) (ev : DaemonEvent) (now : Nat) :
    (processEvent st ev now).st.clients
      = (daemonDispatch (alivenessSweep st now).1 ev now).st.clients := by
  unfold processEvent
  dsimp only
  split
  · rfl
  · split <;> rfl

theorem processEvent_registryWF (st : Daemon) (ev : DaemonEvent) (now : Nat) (h : registryWF st) :
    registryWF (processEvent st ev now).st := by
  have h2 : registryWF (alivenessSweep st now).1 := by
    show clientsWF _
    rw [alivenessSweep_clients_eq]
    exact h
  show clientsWF _
  rw [processEvent_clients_eq]
  exact daemonDispatch_registryWF _ ev now h2

/-- C1 (amended): for any sequence of events, at most one client in the
registry holds a given nickname other than the placeholder `"*"`, where the
uniqueness comparison is case-SENSITIVE (exact string equality): `NICK`
rejects with `433` exactly the nicknames some registry client holds
verbatim, so the invariant is preserved — but a `NICK` differing from an
existing nickname only in letter case is accepted (see the
counterexample). -/
theorem c1_amended_nick_unique_case_sensitive (st : Daemon) (evs : List (DaemonEvent × Nat)) (h : registryWF st) :
    registryWF (runEvents st evs).st := by
  induction evs generalizing st with
  | nil => exact h
  | cons p rest ih =>
    rcases p with ⟨ev, t⟩
    rw [runEvents]
    dsimp only
    split
    · exact processEvent_registryWF st ev t h
    · exact ih _ (processEvent_registryWF st ev t h)

/-- The registration trace of the C1 witness: two clients connect, the
first registers `alice`, the second takes `Alice`. -/
def c1WitnessTrace : List (DaemonEvent × Nat) :=
  [(⟨0, "10.0.0.1:5555", .eventNew, ""⟩, 1),
   (⟨0, "10.0.0.1:5555", .eventMsg, "NICK alice"⟩, 2),
   (⟨0, "10.0.0.1:5555", .eventMsg, "USER alice 0 * :Alice A"⟩, 3),
   (⟨1, "10.0.0.2:5556", .eventNew, ""⟩, 4),
   (⟨1, "10.0.0.2:5556", .eventMsg, "NICK Alice"⟩, 5)]

/-- The C1 witness's initial state: an empty server. -/
def emptyDaemon : Daemon := ⟨"srv", "1.0", false, none, none, [], [], [], [], 0, []⟩

/-- C1, witness: the invariant holds along a concrete registration run. -/
theorem c1_amended_nick_unique_case_sensitive_witness :
    registryWF emptyDaemon ∧ registryWF (runEvents emptyDaemon c1WitnessTrace).st :=
  have h0 : registryWF emptyDaemon := ⟨List.nodup_nil, by intro x hx; cases hx⟩
  ⟨h0, c1_amended_nick_unique_case_sensitive emptyDaemon c1WitnessTrace h0⟩
